import Mathlib

/-!
Verification of the GitHub-issues → Azure-DevOps work-item synchronisation
engine.  The JavaScript sources (`index-enhanced.js`, `iterationCreator.js`,
`stateMapper.js`, `githubProjects.js`, `config.js`) are shallowly embedded:
pure functions become Lean functions, the stateful `IterationCreator` becomes
explicit state passing over an `ICState` record, JavaScript `null`/`undefined`
becomes `Option`, and JS truthiness of strings and numbers is modelled
explicitly (`""` and `0` are falsy).
-/

namespace Sync

/-! ### JavaScript-style helpers -/

/-- Lowercasing, modelling `String.prototype.toLowerCase` (the configuration
keys involved are ASCII). -/
def jsLower (s : String) : String := String.mk (s.data.map Char.toLower)

/-- Models the JavaScript expression `x || d` for a nullable string `x`:
`null`/`undefined` and the empty string are falsy and yield `d`. -/
def jsOr : Option String → String → String
  | some v, d => if v = "" then d else v
  | none, d => d

/-- Truthiness of a nullable JS string (`null`, `undefined` and `""` are
falsy). -/
def jsTruthy : Option String → Bool
  | some v => v ≠ ""
  | none => false

/-- Own-property lookup of a JS object literal (or `JSON.parse` result).
Only the object's own keys are consulted; full property access `obj[key]`,
including the `Object.prototype` chain, is `jsGet` below. -/
def alookup {α : Type} (k : String) : List (String × α) → Option α
  | [] => none
  | (k', v) :: rest => if k' = k then some v else alookup k rest

/-- The property names every plain JS object inherits from
`Object.prototype`: for these keys `obj[key]` on a table without an own entry
yields a truthy inherited value (a function, or the prototype object for
`__proto__`), never `undefined`. -/
def protoKeys : List String :=
  ["constructor", "hasOwnProperty", "isPrototypeOf", "propertyIsEnumerable",
   "toLocaleString", "toString", "valueOf", "__defineGetter__",
   "__defineSetter__", "__lookupGetter__", "__lookupSetter__", "__proto__"]

/-- Result of a JS property access `obj[key]` on a configuration table:
an own entry, a truthy value inherited from `Object.prototype` (not a table
value — its precise identity is not tracked), or `undefined`. -/
inductive JsProp (α : Type) where
  | own : α → JsProp α
  | inherited : JsProp α
  | absent : JsProp α
deriving DecidableEq

/-- Property access `obj[key]` on a plain JS object: own entry first, then
the `Object.prototype` chain, else `undefined`. -/
def jsGet {α : Type} (k : String) (m : List (String × α)) : JsProp α :=
  match alookup k m with
  | some v => .own v
  | none => if k ∈ protoKeys then .inherited else .absent

/-- A string-valued property access combined with the truthiness test the
source performs on it: a hit (own, non-empty value), a miss (`undefined` or
own empty string — both falsy), or a truthy `Object.prototype`-inherited
value. -/
inductive JsRead where
  | hit : String → JsRead
  | miss : JsRead
  | proto : JsRead
deriving DecidableEq

/-- `obj[key]` with truthiness, on a string-valued table. -/
def jsReadT (k : String) (m : List (String × String)) : JsRead :=
  match alookup k m with
  | some v => if v = "" then .miss else .hit v
  | none => if k ∈ protoKeys then .proto else .miss

/-- Result of a JS function that normally returns a table value but can leak
a value inherited from `Object.prototype` (`protoVal`). -/
inductive JsRes (α : Type) where
  | val : α → JsRes α
  | protoVal : JsRes α
deriving DecidableEq

/-- Result of `getAdoState`: a state string, a leaked
`Object.prototype`-inherited value returned directly to the caller
(`protoVal`), a thrown `TypeError` (`thrown`), or a computation that indexed
INTO an inherited object — its concrete JS result (usually the global
fallback, but possibly a property of the inherited function) is beyond this
model and no theorem below touches it (`outOfModel`). -/
inductive JsOutcome (α : Type) where
  | val : α → JsOutcome α
  | protoVal : JsOutcome α
  | thrown : JsOutcome α
  | outOfModel : JsOutcome α
deriving DecidableEq

/-- Own-property read with a truthiness test, as `Option`.  Used only at
keys that are not `Object.prototype` properties (`Status`, `State`,
`Column`), where `obj[key]` cannot hit the prototype chain. -/
def alookupT (k : String) (m : List (String × String)) : Option String :=
  match alookup k m with
  | some v => if v = "" then none else some v
  | none => none

/-! ### StateMapper (`stateMapper.js`)

Configuration shape of the state-mapping JSON: per-project tables keyed by
`[workItemType][issueState][statusColumn]`, a global fallback table, and the
title-prefix → work-item-type table. -/

structure ProjectCfg where
  name : String
  adoAreaPath : String
  statusMappings : List (String × List (String × List (String × String)))
deriving DecidableEq

structure GlobalSettings where
  unmappedStatusFallback : List (String × String)
deriving DecidableEq

structure StateConfig where
  defaultProject : String
  globalSettings : GlobalSettings
  workItemTypeMapping : List (String × String)
  projects : List (String × ProjectCfg)
deriving DecidableEq

/-- `StateMapper.getGlobalFallback`:
`fallbacks[issueState] || (issueState === 'closed' ? 'Done' : 'New')`.
An `issueState` colliding with an `Object.prototype` property name makes
`fallbacks[issueState]` a truthy inherited value, which the `||` returns
as-is. -/
def getGlobalFallback (cfg : StateConfig) (issueState : String) : JsOutcome String :=
  match jsGet issueState cfg.globalSettings.unmappedStatusFallback with
  | .own v => .val (if v = "" then (if issueState = "closed" then "Done" else "New") else v)
  | .inherited => .protoVal
  | .absent => .val (if issueState = "closed" then "Done" else "New")

/-- Body of `StateMapper.getAdoState` after the two normalisation lines:
`issueState` and `projectName` are already defaulted and lowercased.  Mirrors
the source: the `!projectStatus || !projects[projectName]` guard, the
per-type / per-state table lookups, the wildcard `"*"` entry, the direct
status lookup, the `"No status" || "No Status"` fallback, and the global
fallback.  Prototype-chain effects: `projects[projectName]` hitting an
inherited `Object.prototype` value is truthy, so the guard passes, and since
every inherited value (a built-in function, or `Object.prototype` itself for
`__proto__`) has no `statusMappings` property, `project.statusMappings` is
`undefined` and `undefined[workItemType]` throws a TypeError (`thrown`).
A per-type table or state sub-table obtained from the prototype chain makes
the source index into the inherited object itself (`outOfModel`).  A truthy
inherited value read where the source returns the lookup result directly
(`stateMap[projectStatus]` and the other string reads) is returned to the
caller (`protoVal`). -/
def getAdoStateCore (cfg : StateConfig) (workItemType issueState projectName : String)
    (projectStatus : Option String) : JsOutcome String :=
  if !(jsTruthy projectStatus) then getGlobalFallback cfg issueState
  else
    match jsGet projectName cfg.projects with
    | .absent => getGlobalFallback cfg issueState
    | .inherited => .thrown
    | .own project =>
      match jsGet workItemType project.statusMappings with
      | .absent => getGlobalFallback cfg issueState
      | .inherited => .outOfModel
      | .own statusMappings =>
        match jsGet issueState statusMappings with
        | .absent => getGlobalFallback cfg issueState
        | .inherited => .outOfModel
        | .own stateMap =>
          match jsReadT "*" stateMap with
          | .hit w => .val w
          | .proto => .protoVal
          | .miss =>
            match jsReadT (match projectStatus with | some s => s | none => "") stateMap with
            | .hit v => .val v
            | .proto => .protoVal
            | .miss =>
              match jsReadT "No status" stateMap with
              | .hit v => .val v
              | .proto => .protoVal
              | .miss =>
                match jsReadT "No Status" stateMap with
                | .hit v => .val v
                | .proto => .protoVal
                | .miss => getGlobalFallback cfg issueState

/-- `StateMapper.getAdoState(workItemType, issueState, projectName, projectStatus)`.
Inputs that may be `null` in JS are `Option String`; the normalisation lines
`issueState = (issueState || 'open').toLowerCase()` and
`projectName = (projectName || this.config.defaultProject).toLowerCase()`
feed `getAdoStateCore`. -/
def getAdoState (cfg : StateConfig) (workItemType : String)
    (issueState0 projectName0 projectStatus : Option String) : JsOutcome String :=
  getAdoStateCore cfg workItemType (jsLower (jsOr issueState0 "open"))
    (jsLower (jsOr projectName0 cfg.defaultProject)) projectStatus

/-- Character-list prefix test (pattern, then text). -/
def listStartsWith : List Char → List Char → Bool
  | [], _ => true
  | _ :: _, [] => false
  | a :: as, b :: bs => a = b && listStartsWith as bs

/-- Models `new RegExp('^\\' + p, 'i').test(title)` from
`StateMapper.getWorkItemType`: a case-insensitive match of `p` at the start
of the title.  The backslash escapes only the pattern's FIRST character; the
remainder of the key is raw regex, so this literal starts-with reading is
justified exactly for keys like the default configuration's (`[Epic]`,
`[Story]`, ... — a leading `[`, no later metacharacters).  The theorems
below therefore quantify over the default configuration only, never over
arbitrary key sets. -/
def titleMatches (p title : String) : Bool :=
  listStartsWith (jsLower p).toList (jsLower title).toList

/-- First entry of the type-mapping table (in object-literal order, skipping
the `"default"` key) whose prefix matches the title. -/
def findPrefixType (title : String) : List (String × String) → Option String
  | [] => none
  | (p, ty) :: rest =>
    if p = "default" then findPrefixType title rest
    else if titleMatches p title then some ty
    else findPrefixType title rest

/-- The hard-coded label → type table of `StateMapper.getWorkItemType`. -/
def labelTypeMap : List (String × String) :=
  [("epic", "Epic"), ("bug", "Bug"), ("user-story", "Product Backlog Item"),
   ("task", "Task")]

/-- The label loop of `StateMapper.getWorkItemType`: first label (in list
order) whose lowercase form reads truthy out of `labelMap`.  A label such as
`constructor` hits the inherited `Object` constructor — truthy — and the
source returns that function as the "type". -/
def findLabelType : List String → Option (JsRes String)
  | [] => none
  | l :: rest =>
    match jsGet (jsLower l) labelTypeMap with
    | .own ty => if ty = "" then findLabelType rest else some (.val ty)
    | .inherited => some .protoVal
    | .absent => findLabelType rest

/-- `StateMapper.getWorkItemType(issueTitle, labels)`.  The prefix loop uses
`Object.entries`, which iterates own properties only; the final
`typeMapping.default || 'Product Backlog Item'` accesses the literal key
`default`, which is not an `Object.prototype` property, so the own-key
`alookup` is exact there. -/
def getWorkItemType (cfg : StateConfig) (issueTitle : String)
    (labels : List String) : JsRes String :=
  match findPrefixType issueTitle cfg.workItemTypeMapping with
  | some ty => .val ty
  | none =>
    match findLabelType labels with
    | some r => r
    | none => .val (jsOr (alookup "default" cfg.workItemTypeMapping) "Product Backlog Item")

/-- The status table shared by the `Epic` work-item type in
`StateMapper.getDefaultConfig`. -/
def epicOpenMap : List (String × String) :=
  [("No status", "New"), ("Product Backlog", "New"), ("Sprint Backlog", "New"),
   ("Ready", "New"), ("In Progress", "In Progress"), ("In PR review", "In Progress"),
   ("In Beta", "In Progress"), ("In Main", "In Progress"), ("In Production", "Done")]

/-- Open-state status table for `Product Backlog Item` and `Bug` in the
default configuration. -/
def pbiOpenMap : List (String × String) :=
  [("No status", "New"), ("Product Backlog", "New"), ("Sprint Backlog", "Approved"),
   ("Ready", "Approved"), ("In Progress", "Committed"), ("In PR review", "Committed"),
   ("In Beta", "Committed"), ("In Main", "Committed"), ("In Production", "Done")]

/-- Open-state status table for `Task` in the default configuration. -/
def taskOpenMap : List (String × String) :=
  [("No status", "To Do"), ("Product Backlog", "To Do"), ("Sprint Backlog", "To Do"),
   ("Ready", "To Do"), ("In Progress", "In Progress"), ("In PR review", "In Progress"),
   ("In Beta", "In Progress"), ("In Main", "In Progress"), ("In Production", "Done")]

/-- The `projects.siwar` entry of `StateMapper.getDefaultConfig`. -/
def siwarProject : ProjectCfg :=
  { name := "siwar"
    adoAreaPath := "سوار\\سوار Team"
    statusMappings :=
      [("Epic", [("open", epicOpenMap), ("closed", [("*", "Done")])]),
       ("Product Backlog Item", [("open", pbiOpenMap), ("closed", [("*", "Done")])]),
       ("Bug", [("open", pbiOpenMap), ("closed", [("*", "Done")])]),
       ("Task", [("open", taskOpenMap), ("closed", [("*", "Done")])])] }

/-- `StateMapper.getDefaultConfig()`. -/
def defaultConfig : StateConfig :=
  { defaultProject := "siwar"
    globalSettings := { unmappedStatusFallback := [("open", "New"), ("closed", "Done")] }
    workItemTypeMapping :=
      [("[Epic]", "Epic"), ("[Story]", "Product Backlog Item"),
       ("[Request]", "Product Backlog Item"), ("[IMPROVEMENT]", "Product Backlog Item"),
       ("[Bug]", "Bug"), ("default", "Product Backlog Item")]
    projects := [("siwar", siwarProject)] }

/-! ### Dates

JavaScript `Date` values are modelled at day granularity (the sources only
ever use year/month/day): a valid date is its day number relative to
1970-01-01, an Invalid Date is `none`. -/

/-- Day number of a civil date (proleptic Gregorian); Howard Hinnant's
`days_from_civil`, with floor division.  The formula is linear in `d`, so it
is also the correct absolute day for out-of-range day-of-month values, which
is exactly how `new Date(y, m, d)` normalises them. -/
def daysFromCivil (y m d : Int) : Int :=
  let y' := if m ≤ 2 then y - 1 else y
  let era : Int := y'.fdiv 400
  let yoe := y' - era * 400
  let mAdj : Int := if 2 < m then m - 3 else m + 9
  let doy := (153 * mAdj + 2).fdiv 5 + (d - 1)
  let doe := yoe * 365 + yoe.fdiv 4 - yoe.fdiv 100 + doy
  era * 146097 + doe - 719468

/-- Inverse of `daysFromCivil` (Hinnant's `civil_from_days`):
year, month (1-12), day (1-31) of a day number. -/
def civilFromDays (z0 : Int) : Int × Int × Int :=
  let z := z0 + 719468
  let era := z.fdiv 146097
  let doe := z - era * 146097
  let yoe := (doe - doe.fdiv 1460 + doe.fdiv 36524 - doe.fdiv 146096).fdiv 365
  let y := yoe + era * 400
  let doy := doe - (365 * yoe + yoe.fdiv 4 - yoe.fdiv 100)
  let mp := (5 * doy + 2).fdiv 153
  let d := doy - (153 * mp + 2).fdiv 5 + 1
  let m := if mp < 10 then mp + 3 else mp - 9
  (if m ≤ 2 then y + 1 else y, m, d)

/-- `new Date(year, monthIndex, day)` with numeric arguments, any of which may
be NaN (`none`): years 0-99 map to 1900-1999, the 0-based month index and the
day are normalised by carrying into the year/month, NaN anywhere gives an
Invalid Date. -/
def jsMakeDate (y m d : Option Int) : Option Int :=
  match y, m, d with
  | some y, some m, some d =>
    let y := if 0 ≤ y ∧ y ≤ 99 then y + 1900 else y
    let ym := y * 12 + m
    let yy := ym.fdiv 12
    let mm := ym - yy * 12
    some (daysFromCivil yy (mm + 1) 1 + (d - 1))
  | _, _, _ => none

/-- `d.setDate(d.getDate() + n)`: shift a date by `n` days (Invalid stays
Invalid). -/
def jsAddDays (d : Option Int) (n : Int) : Option Int := d.map (· + n)

/-! ### SprintDateParser (`IterationCreator.parseSprintDates` and helpers) -/

/-- JS regex `\w` (the sources only meet ASCII here). -/
def isWordChar (c : Char) : Bool := c.isAlphanum || c = '_'

/-- JS regex `\s` (ASCII whitespace; the sprint labels contain no exotic
Unicode spaces). -/
def isSpaceChar (c : Char) : Bool :=
  c = ' ' || c = '\t' || c = '\n' || c = '\r' || c = '\x0b' || c = '\x0c'

/-- JS regex `\d`. -/
def isDigitChar (c : Char) : Bool := c.isDigit

/-- Split off the maximal run of characters satisfying `p`. -/
def takeRun (p : Char → Bool) (l : List Char) : List Char × List Char :=
  (l.takeWhile p, l.dropWhile p)

/-- Take exactly `n` characters, all satisfying `p` (regex `p{n}`). -/
def takeExact (p : Char → Bool) : Nat → List Char → Option (List Char × List Char)
  | 0, l => some ([], l)
  | _ + 1, [] => none
  | n + 1, c :: t =>
    if p c then
      match takeExact p n t with
      | some (xs, rest) => some (c :: xs, rest)
      | none => none
    else none

/-- Match attempt of `/(\w+)\s+(\d+)\s*-\s*(\w+)\s+(\d+)/i` anchored at the
head of `l`, returning the four capture groups.  Because the character
classes of adjacent regex atoms are disjoint, the greedy backtracking engine
behaves exactly like this maximal-run scan. -/
def matchP1At (l : List Char) : Option (List Char × List Char × List Char × List Char) :=
  let (w1, r1) := takeRun isWordChar l
  if w1 = [] then none else
  let (s1, r2) := takeRun isSpaceChar r1
  if s1 = [] then none else
  let (d1, r3) := takeRun isDigitChar r2
  if d1 = [] then none else
  let (_, r4) := takeRun isSpaceChar r3
  match r4 with
  | '-' :: r5 =>
    let (_, r6) := takeRun isSpaceChar r5
    let (w2, r7) := takeRun isWordChar r6
    if w2 = [] then none else
    let (s2, r8) := takeRun isSpaceChar r7
    if s2 = [] then none else
    let (d2, _) := takeRun isDigitChar r8
    if d2 = [] then none else some (w1, d1, w2, d2)
  | _ => none

/-- Match attempt of `/(\d+)\/(\d+)\s*-\s*(\d+)\/(\d+)/` anchored at the head
of `l`. -/
def matchP2At (l : List Char) : Option (List Char × List Char × List Char × List Char) :=
  let (d1, r1) := takeRun isDigitChar l
  if d1 = [] then none else
  match r1 with
  | '/' :: r2 =>
    let (d2, r3) := takeRun isDigitChar r2
    if d2 = [] then none else
    let (_, r4) := takeRun isSpaceChar r3
    match r4 with
    | '-' :: r5 =>
      let (_, r6) := takeRun isSpaceChar r5
      let (d3, r7) := takeRun isDigitChar r6
      if d3 = [] then none else
      match r7 with
      | '/' :: r8 =>
        let (d4, _) := takeRun isDigitChar r8
        if d4 = [] then none else some (d1, d2, d3, d4)
      | _ => none
    | _ => none
  | _ => none

/-- Match attempt of `/(\d{4})-(\d{2})-(\d{2})\s+to\s+(\d{4})-(\d{2})-(\d{2})/`
anchored at the head of `l`. -/
def matchP3At (l : List Char) :
    Option ((List Char × List Char × List Char) × (List Char × List Char × List Char)) :=
  match takeExact isDigitChar 4 l with
  | none => none
  | some (y1, r1) =>
  match r1 with
  | '-' :: r2 =>
    match takeExact isDigitChar 2 r2 with
    | none => none
    | some (m1, r3) =>
    match r3 with
    | '-' :: r4 =>
      match takeExact isDigitChar 2 r4 with
      | none => none
      | some (d1, r5) =>
      let (sp1, r6) := takeRun isSpaceChar r5
      if sp1 = [] then none else
      match r6 with
      | 't' :: 'o' :: r7 =>
        let (sp2, r8) := takeRun isSpaceChar r7
        if sp2 = [] then none else
        match takeExact isDigitChar 4 r8 with
        | none => none
        | some (y2, r9) =>
        match r9 with
        | '-' :: r10 =>
          match takeExact isDigitChar 2 r10 with
          | none => none
          | some (m2, r11) =>
          match r11 with
          | '-' :: r12 =>
            match takeExact isDigitChar 2 r12 with
            | none => none
            | some (d2, _) => some ((y1, m1, d1), (y2, m2, d2))
          | _ => none
        | _ => none
      | _ => none
    | _ => none
  | _ => none

/-- `str.match(re)` for an unanchored regex: first (leftmost) position at
which the pattern matches. -/
def firstMatch {α : Type} (m : List Char → Option α) : List Char → Option α
  | [] => m []
  | c :: t =>
    match m (c :: t) with
    | some r => some r
    | none => firstMatch m t

/-- Digit run → value. -/
def digitsToNat (l : List Char) : Nat :=
  l.foldl (fun a c => a * 10 + (c.toNat - 48)) 0

def isHexDigitChar (c : Char) : Bool :=
  c.isDigit || ('a' ≤ c && c ≤ 'f') || ('A' ≤ c && c ≤ 'F')

def hexToNat (l : List Char) : Nat :=
  l.foldl (fun a c =>
    a * 16 + (if c.isDigit then c.toNat - 48
              else if 'a' ≤ c && c ≤ 'f' then c.toNat - 87
              else c.toNat - 55)) 0

/-- Unsigned part of JS `parseInt`: a `0x`/`0X` prefix switches to hex,
otherwise the maximal leading digit run; no digits → NaN (`none`). -/
def parseIntBody (l : List Char) : Option Int :=
  match l with
  | '0' :: 'x' :: rest =>
    let hs := rest.takeWhile isHexDigitChar
    if hs = [] then none else some (hexToNat hs)
  | '0' :: 'X' :: rest =>
    let hs := rest.takeWhile isHexDigitChar
    if hs = [] then none else some (hexToNat hs)
  | _ =>
    let ds := l.takeWhile isDigitChar
    if ds = [] then none else some (digitsToNat ds)

/-- JS `parseInt(str)` (radix 10/16 auto-detection, leading whitespace and an
optional sign; NaN is `none`). -/
def jsParseInt (l : List Char) : Option Int :=
  let l := l.dropWhile isSpaceChar
  match l with
  | '-' :: rest => (parseIntBody rest).map (fun n => -n)
  | '+' :: rest => parseIntBody rest
  | _ => parseIntBody l

def allDigits1 (l : List Char) : Bool := !l.isEmpty && l.all isDigitChar

def expTail (l : List Char) : Bool :=
  match l with
  | [] => true
  | 'e' :: rest =>
    (match rest with
     | '+' :: r => allDigits1 r
     | '-' :: r => allDigits1 r
     | r => allDigits1 r)
  | 'E' :: rest =>
    (match rest with
     | '+' :: r => allDigits1 r
     | '-' :: r => allDigits1 r
     | r => allDigits1 r)
  | _ => false

/-- Decimal numeric literal as accepted by JS `Number()` coercion:
`digits [. digits] [exponent]` or `. digits [exponent]`. -/
def isDecimalLit (l : List Char) : Bool :=
  let (ip, r1) := takeRun isDigitChar l
  match r1 with
  | '.' :: rest =>
    let (fp, r2) := takeRun isDigitChar rest
    if ip = [] && fp = [] then false else expTail r2
  | _ => if ip = [] then false else expTail r1

/-- Models `isNaN(str)`, i.e. whether `Number(str)` is NaN: after trimming,
the empty string coerces to 0; signed decimal (with optional fraction and
exponent), `Infinity`, and unsigned `0x`/`0o`/`0b` literals are numbers;
everything else is NaN. -/
def jsIsNaNStr (l0 : List Char) : Bool :=
  let l := (l0.dropWhile isSpaceChar).reverse.dropWhile isSpaceChar |>.reverse
  let core : List Char → Bool := fun t =>
    t = "Infinity".toList || isDecimalLit t
  let unsigned : List Char → Bool := fun t =>
    match t with
    | '0' :: 'x' :: r => !r.isEmpty && r.all isHexDigitChar
    | '0' :: 'X' :: r => !r.isEmpty && r.all isHexDigitChar
    | '0' :: 'o' :: r => !r.isEmpty && r.all (fun c => '0' ≤ c && c ≤ '7')
    | '0' :: 'O' :: r => !r.isEmpty && r.all (fun c => '0' ≤ c && c ≤ '7')
    | '0' :: 'b' :: r => !r.isEmpty && r.all (fun c => c = '0' || c = '1')
    | '0' :: 'B' :: r => !r.isEmpty && r.all (fun c => c = '0' || c = '1')
    | t => core t
  match l with
  | [] => false
  | '+' :: rest => !(core rest)
  | '-' :: rest => !(core rest)
  | _ => !(unsigned l)

/-- The months table of `IterationCreator.parseMonth`. -/
def monthsTable : List (String × Nat) :=
  [("jan", 0), ("january", 0), ("feb", 1), ("february", 1), ("mar", 2), ("march", 2),
   ("apr", 3), ("april", 3), ("may", 4), ("jun", 5), ("june", 5), ("jul", 6),
   ("july", 6), ("aug", 7), ("august", 7), ("sep", 8), ("september", 8), ("oct", 9),
   ("october", 9), ("nov", 10), ("november", 10), ("dec", 11), ("december", 11)]

/-- `IterationCreator.parseMonth(monthStr)`:
`months[monthStr.toLowerCase()] || 0`.  An own entry or 0; but a month
string whose lowercase form is an `Object.prototype` property name
(`constructor`, `__proto__`) reads a truthy inherited value, which the `||`
returns as-is — the source then returns a function, not a month index. -/
def parseMonth (s : String) : JsRes Nat :=
  match jsGet (jsLower s) monthsTable with
  | .own v => .val (if v = 0 then 0 else v)
  | .inherited => .protoVal
  | .absent => .val 0

def parseMonthL (l : List Char) : JsRes Nat := parseMonth (String.mk l)

/-- `Number()` coercion applied by the `Date` constructor to the month
argument: a proper index passes through, a prototype-inherited
function/object coerces to NaN. -/
def monthNum : JsRes Nat → Option Int
  | .val n => some (n : Int)
  | .protoVal => none

/-- `Number(str)` coercion as applied by the `Date` constructor to the
all-digit strings produced by the ISO pattern's capture groups. -/
def jsStrToInt (l : List Char) : Option Int :=
  if !l.isEmpty && l.all isDigitChar then some (digitsToNat l) else none

/-- `IterationCreator.extractDatesFromMatch(match, year)`.  `gs` is the list
of capture groups (the source's `match.length` counts the whole match at
index 0, so its `=== 5` test is `gs.length = 4` here and `=== 7` is
`gs.length = 6`). -/
def extractDatesFromMatch (gs : List (List Char)) (year : Int) :
    Option (Option Int × Option Int) :=
  match gs with
  | [] => none
  | g1 :: _ =>
    if jsIsNaNStr g1 then
      match gs with
      | m1 :: d1 :: m2 :: d2 :: _ =>
        some (jsMakeDate (some year) (monthNum (parseMonthL m1)) (jsParseInt d1),
              jsMakeDate (some year) (monthNum (parseMonthL m2)) (jsParseInt d2))
      | _ => none
    else if gs.length = 4 then
      match gs with
      | m1 :: d1 :: m2 :: d2 :: _ =>
        some (jsMakeDate (some year) ((jsParseInt m1).map (· - 1)) (jsParseInt d1),
              jsMakeDate (some year) ((jsParseInt m2).map (· - 1)) (jsParseInt d2))
      | _ => none
    else if gs.length = 6 then
      match gs with
      | y1 :: m1 :: d1 :: y2 :: m2 :: d2 :: _ =>
        some (jsMakeDate (jsStrToInt y1) ((jsParseInt m1).map (· - 1)) (jsStrToInt d1),
              jsMakeDate (jsStrToInt y2) ((jsParseInt m2).map (· - 1)) (jsStrToInt d2))
      | _ => none
    else none

/-- `IterationCreator.parseSprintDates(sprintName, year)`: try the three date
grammars in order; the first whose regex matches is handed to
`extractDatesFromMatch`; none matching → `null`. -/
def parseSprintDates (name : List Char) (year : Int) :
    Option (Option Int × Option Int) :=
  match firstMatch matchP1At name with
  | some (w1, d1, w2, d2) => extractDatesFromMatch [w1, d1, w2, d2] year
  | none =>
  match firstMatch matchP2At name with
  | some (a, b, c, d) => extractDatesFromMatch [a, b, c, d] year
  | none =>
  match firstMatch matchP3At name with
  | some ((y1, m1, dd1), (y2, m2, dd2)) =>
    extractDatesFromMatch [y1, m1, dd1, y2, m2, dd2] year
  | none => none

/-! ### IterationCreator (`iterationCreator.js`)

The class instance is modelled as an explicit state record `ICState`; the
Azure-DevOps work API it talks to is a deterministic collaborator
`IterStore`.  `createCalls` instruments how often `postTeamIteration` is
invoked (it is not a field of the JS class). -/

/-- Digits of a natural number (most significant first); `fuel` bounds the
recursion and is always sufficient at `n + 1`. -/
def natToStrAux : Nat → Nat → List Char
  | 0, _ => []
  | fuel + 1, n =>
    if n < 10 then [Char.ofNat (n + 48)]
    else natToStrAux fuel (n / 10) ++ [Char.ofNat (n % 10 + 48)]

/-- `String(n)` for an integral JS number. -/
def jsNumToString (i : Int) : String :=
  if i < 0 then String.mk ('-' :: natToStrAux ((-i).toNat + 1) (-i).toNat)
  else String.mk (natToStrAux (i.toNat + 1) i.toNat)

/-- `String(n).padStart(2, '0')` (the argument is never the empty string). -/
def pad2 (i : Int) : String :=
  let s := jsNumToString i
  if s.length < 2 then "0" ++ s else s

/-- `IterationCreator.formatDate(date)`: `YYYY-MM-DD`; on an Invalid Date the
JS getters are NaN and the template renders `NaN-NaN-NaN`. -/
def formatDate (d : Option Int) : String :=
  match d with
  | some z =>
    let c := civilFromDays z
    jsNumToString c.1 ++ "-" ++ pad2 c.2.1 ++ "-" ++ pad2 c.2.2
  | none => "NaN-NaN-NaN"

/-- An iteration object as returned by the work API. -/
structure Iter where
  name : String
  startDate : Option String
  finishDate : Option String
  path : String
deriving DecidableEq

/-- The iteration object literal that `createIteration` posts. -/
structure IterReq where
  name : String
  startDate : Option String
  finishDate : Option String
  path : String
deriving DecidableEq

/-- Deterministic model of the work API: `getTeamIterations` (`none` =
throws) and `postTeamIteration` (`none` = throws). -/
structure IterStore where
  listResult : Option (List Iter)
  createResult : IterReq → Option Iter

/-- Constructor arguments and collaborators of one `IterationCreator`
instance; `nowDay`/`curYear` stand for `new Date()` and
`new Date().getFullYear()` at run time. -/
structure IterEnv where
  project : String
  store : IterStore
  nowDay : Int
  curYear : Int

/-- Mutable fields of the `IterationCreator` instance. -/
structure ICState where
  existingIterations : List (String × Iter)
  cacheLoaded : Bool
  createCalls : Nat
deriving DecidableEq

/-- The freshly constructed instance: empty cache, not loaded. -/
def initICState : ICState := ⟨[], false, 0⟩

/-- `Map.prototype.set`: replace in place if the key exists, else append. -/
def mapSet {α : Type} (m : List (String × α)) (k : String) (v : α) : List (String × α) :=
  match m with
  | [] => [(k, v)]
  | (k', v') :: rest => if k' = k then (k, v) :: rest else (k', v') :: mapSet rest k v

/-- `loadExistingIterations`: a no-op when already loaded; on a successful
listing every iteration is `set` under its lowercased name and the loaded
flag is raised; when the listing throws, the error is logged and the state is
untouched (the flag stays down). -/
def loadExistingIterations (env : IterEnv) (s : ICState) : ICState :=
  if s.cacheLoaded then s
  else
    match env.store.listResult with
    | none => s
    | some its =>
      { s with
        existingIterations :=
          its.foldl (fun m it => mapSet m (jsLower it.name) it) s.existingIterations,
        cacheLoaded := true }

/-- `iterationExists(iterationName)` (loads the cache first). -/
def iterationExists (env : IterEnv) (s : ICState) (name : String) : Bool × ICState :=
  let s' := loadExistingIterations env s
  ((alookup (jsLower name) s'.existingIterations).isSome, s')

/-- `getIteration(iterationName)` (loads the cache first; `|| null`). -/
def getIteration (env : IterEnv) (s : ICState) (name : String) : Option Iter × ICState :=
  let s' := loadExistingIterations env s
  (alookup (jsLower name) s'.existingIterations, s')

/-- The iteration object literal built inside `createIteration`
(`startDate ? formatDate(startDate) : null`, and
`path || \\project\\name`). -/
def buildIterReq (env : IterEnv) (name : String)
    (startDate endDate : Option (Option Int)) (path : Option String) : IterReq :=
  { name := name
    startDate := startDate.map formatDate
    finishDate := endDate.map formatDate
    path := jsOr path ("\\" ++ env.project ++ "\\" ++ name) }

/-- `createIteration(iterationName, startDate, endDate, path)`: return the
cached entry when the name already exists; otherwise post the request — on
success cache the created iteration under the lowercased name and return it,
on an error log and return `null` leaving the cache untouched. -/
def createIteration (env : IterEnv) (s : ICState) (name : String)
    (startDate endDate : Option (Option Int)) (path : Option String) :
    Option Iter × ICState :=
  let (ex, s1) := iterationExists env s name
  if ex then getIteration env s1 name
  else
    let req := buildIterReq env name startDate endDate path
    match env.store.createResult req with
    | some created =>
      (some created,
        { s1 with
          existingIterations := mapSet s1.existingIterations (jsLower name) created,
          createCalls := s1.createCalls + 1 })
    | none => (none, { s1 with createCalls := s1.createCalls + 1 })

/-- The sprint-field value taken from GitHub Projects. -/
structure SprintInfo where
  name : String
  startDate : Option String
  duration : Option Int
deriving DecidableEq

/-- Models `new Date(str)` for the ISO `YYYY-MM-DD` date strings GitHub
Projects delivers in iteration fields; anything else is an Invalid Date in
this model. -/
def jsDateOfString (str : String) : Option Int :=
  match takeExact isDigitChar 4 str.toList with
  | none => none
  | some (y, r1) =>
    match r1 with
    | '-' :: r2 =>
      match takeExact isDigitChar 2 r2 with
      | none => none
      | some (m, r3) =>
        match r3 with
        | '-' :: r4 =>
          match takeExact isDigitChar 2 r4 with
          | none => none
          | some (d, r5) =>
            if r5 = [] then
              some (daysFromCivil (digitsToNat y) (digitsToNat m) (digitsToNat d))
            else none
        | _ => none
    | _ => none

/-- `createFromSprintInfo(sprintInfo, defaultDuration)`: reject a missing or
falsy name; prefer the explicit GitHub start date plus a truthy duration;
else parse the sprint name; else fall back to `now` plus the default
duration; finally delegate to `createIteration`. -/
def createFromSprintInfo (env : IterEnv) (s : ICState)
    (info : Option SprintInfo) (defaultDuration : Int) : Option Iter × ICState :=
  match info with
  | none => (none, s)
  | some info =>
    if info.name = "" then (none, s)
    else
      let sd0 : Option (Option Int) :=
        match info.startDate with
        | some str => if str = "" then none else some (jsDateOfString str)
        | none => none
      let durT : Bool := match info.duration with | some d => d ≠ 0 | none => false
      let p : Option (Option Int) × Option (Option Int) :=
        if sd0.isSome && durT then
          (sd0, some (jsAddDays (sd0.getD none) (info.duration.getD 0)))
        else if sd0.isNone then
          match parseSprintDates info.name.toList env.curYear with
          | some (ps, pe) => (some ps, some pe)
          | none => (none, none)
        else (sd0, none)
      let q : Option (Option Int) × Option (Option Int) :=
        if p.1.isNone then
          (some (some env.nowDay), some (some (env.nowDay + defaultDuration)))
        else p
      createIteration env s info.name q.1 q.2 none

/-- Number of cache entries stored under a given key. -/
def countKey (m : List (String × Iter)) (k : String) : Nat :=
  (m.filter (fun p => p.1 = k)).length

/-! ### Sync orchestration (`index-enhanced.js`)

Feature flags fixed by `config.js` (`config.features`), the state mapper, and
the per-issue create-or-update step of `handleBulkMigration`.  The markdown
converter (`showdown`) is an external collaborator and is passed in as a
function. -/

/-- `config.features.syncTitle` (`config.js`). -/
def featSyncTitle : Bool := true

/-- `config.features.syncDescription` (`config.js`). -/
def featSyncDescription : Bool := true

/-- `config.features.syncState` (`config.js`). -/
def featSyncState : Bool := true

/-- `config.features.syncLabels` (`config.js`). -/
def featSyncLabels : Bool := true

/-- `config.features.syncProjectStatus` (`config.js`). -/
def featSyncProjectStatus : Bool := true

/-- `config.labels.priorityLabels` (`config.js`). -/
def priorityLabels : List (String × Nat) :=
  [("ذات أهمية قصوى", 1), ("blocker", 1), ("high-priority", 1), ("مؤجل", 4)]

/-- The fields of the source-issue view model (`getValuesFromPayload` /
`convertIssueToVm`) that the create-or-update step reads. -/
structure Vm where
  number : Nat
  title : String
  body : String
  state : String
  user : String
  labels : List String
  repo_name : String
  repository : String
deriving DecidableEq

/-- A work-item snapshot as stored by the target system: its id and the
fields the sync reads or writes. -/
structure WorkItem where
  id : Nat
  title : String
  description : String
  state : String
  tags : String
  workItemType : String
deriving DecidableEq

/-- GitHub Projects info as produced by `parseProjectInfo`
(`githubProjects.js`): project title plus the flattened field map (the fields
relevant here are single-select strings). -/
structure ProjInfo where
  projectName : String
  fields : List (String × String)
deriving DecidableEq

/-- `GitHubProjectsClient.getProjectName`:
`projectInfo.projectName?.toLowerCase() || null`. -/
def getProjectName (pi : ProjInfo) : Option String :=
  if pi.projectName = "" then none else some (jsLower pi.projectName)

/-- `GitHubProjectsClient.getProjectStatus`: first truthy of the `Status`,
`State`, `Column` fields. -/
def getProjectStatus (pi : ProjInfo) : Option String :=
  match alookupT "Status" pi.fields with
  | some v => some v
  | none =>
    match alookupT "State" pi.fields with
    | some v => some v
    | none =>
      match alookupT "Column" pi.fields with
      | some v => some v
      | none => none

/-- String form of a resolved work-item type when it is handed on (as the
create call's type parameter and as the lookup key for state resolution).
The placeholder branch — a prototype-inherited function leaking out of
`getWorkItemType` — is outside this model and no theorem exercises it. -/
def resolvedStr : JsRes String → String
  | .val s => s
  | .protoVal => "[inherited Object.prototype value]"

/-- String form of a resolved state when it is written into a patch
document.  The placeholder branches (a leaked inherited value, a thrown
TypeError — which in the source would abort the patch construction — or an
untracked path) are outside this model and no theorem exercises them. -/
def outcomeStr : JsOutcome String → String
  | .val s => s
  | .protoVal => "[inherited Object.prototype value]"
  | .thrown => "[TypeError]"
  | .outOfModel => "[outside the model]"

/-- One JSON-patch operation of a patch document. -/
structure PatchOp where
  op : String
  path : String
  value : String
deriving DecidableEq

/-- `buildTagsString(vm)`: marker tag, repo name, `GH-<n>`, then (since
`config.labels.allAsTags`) every label for which
`priorityLabels[label]` is falsy, joined by `"; "`.  A label colliding with
an `Object.prototype` property name reads a truthy inherited value and is
therefore (surprisingly) NOT kept as a tag. -/
def buildTagsString (vm : Vm) : String :=
  String.intercalate "; "
    (["GitHub Issue", vm.repo_name, "GH-" ++ jsNumToString vm.number] ++
      vm.labels.filter (fun l =>
        match jsGet l priorityLabels with
        | .own v => v = 0
        | .inherited => false
        | .absent => true))

/-- The computed new title used by both the create and the update path:
`` `${vm.title} (GitHub Issue #${vm.number})` ``. -/
def renderedTitle (vm : Vm) : String :=
  vm.title ++ " (GitHub Issue #" ++ jsNumToString vm.number ++ ")"

/-- `updateWorkItem(vm, workItem, projectInfo, ...)`, reduced to the patch
document it builds: a title `replace` only when the rendered title differs
from the snapshot, an unconditional description `replace`, a state `replace`
only when the resolved state differs from the snapshot (and only when
project info is present), and always one appended `System.History` entry. -/
def updateWorkItemPatch (mdToHtml : String → String) (smCfg : StateConfig)
    (vm : Vm) (wi : WorkItem) (projectInfo : Option ProjInfo) : List PatchOp :=
  (if featSyncTitle then
    (if wi.title ≠ renderedTitle vm then
      [⟨"replace", "/fields/System.Title", renderedTitle vm⟩] else [])
   else []) ++
  (if featSyncDescription then
    [⟨"replace", "/fields/System.Description", mdToHtml vm.body⟩]
   else []) ++
  (match projectInfo with
   | some pi =>
     if featSyncProjectStatus then
       (if (JsOutcome.val wi.state : JsOutcome String)
            ≠ getAdoState smCfg wi.workItemType (some vm.state)
                (getProjectName pi) (getProjectStatus pi) then
         [⟨"replace", "/fields/System.State",
           outcomeStr (getAdoState smCfg wi.workItemType (some vm.state)
             (getProjectName pi) (getProjectStatus pi))⟩]
        else [])
     else []
   | none => []) ++
  [⟨"add", "/fields/System.History", "Issue updated on GitHub by " ++ vm.user⟩]

/-- Apply a patch document to a stored work item (the target system's write
semantics for the field paths this engine emits; `System.History` is an
append-only audit field, not a snapshot field). -/
def applyPatch (wi : WorkItem) (ops : List PatchOp) : WorkItem :=
  ops.foldl
    (fun w o =>
      if o.path = "/fields/System.Title" then { w with title := o.value }
      else if o.path = "/fields/System.Description" then { w with description := o.value }
      else if o.path = "/fields/System.State" then { w with state := o.value }
      else if o.path = "/fields/System.Tags" then { w with tags := o.value }
      else w)
    wi

/-- Substring test (`List` form), modelling WIQL `CONTAINS` and JS
`String.prototype.includes`. -/
def listContainsSub (pat : List Char) : List Char → Bool
  | [] => listStartsWith pat []
  | c :: t => listStartsWith pat (c :: t) || listContainsSub pat t

/-- Substring test on strings. -/
def strContains (s pat : String) : Bool := listContainsSub pat.toList s.toList

/-- The WIQL predicate of `find(vm)`: title contains the rendered
`(GitHub Issue #<n>)` marker, tags contain the fixed `GitHub Issue` marker
and the source repository name. -/
def wiqlMatches (vm : Vm) (wi : WorkItem) : Bool :=
  strContains wi.title ("(GitHub Issue #" ++ jsNumToString vm.number ++ ")") &&
  strContains wi.tags "GitHub Issue" &&
  strContains wi.tags vm.repository

/-- Result of `find(vm)`: the JS function returns a work item, `null`
(not found) or the sentinel `-1` (lookup error). -/
inductive FindResult where
  | err : FindResult
  | notFound : FindResult
  | found : WorkItem → FindResult
deriving DecidableEq

/-- The target system as the orchestrator sees it: the stored work items, the
id the next create receives, and whether the connection, the WIQL query or
the create call throw. -/
structure AdoBackend where
  items : List WorkItem
  nextId : Nat
  connectFails : Bool
  queryFails : Bool
  createFails : Bool
deriving DecidableEq

/-- `find(vm)` (`index-enhanced.js`): `-1` when connecting or querying
throws; `null` when the query returns no work item; otherwise the first
query result (fetched in full). -/
def find (b : AdoBackend) (vm : Vm) : FindResult :=
  if b.connectFails then .err
  else if b.queryFails then .err
  else
    match b.items.filter (wiqlMatches vm) with
    | [] => .notFound
    | wi :: _ => .found wi

/-- The work item stored by the target system after `createWorkItem`'s patch
document is applied (the fields this model tracks; feature flags are the
`config.js` values). -/
def buildCreatedWorkItem (mdToHtml : String → String) (smCfg : StateConfig)
    (newId : Nat) (vm : Vm) (wit : String) (projectInfo : Option ProjInfo) : WorkItem :=
  { id := newId
    title := if featSyncTitle then renderedTitle vm else ""
    description := if featSyncDescription then mdToHtml vm.body else ""
    state :=
      if featSyncState then
        outcomeStr (getAdoState smCfg wit (some vm.state)
          (match projectInfo with | some pi => getProjectName pi | none => none)
          (match projectInfo with | some pi => getProjectStatus pi | none => none))
      else ""
    tags := if featSyncLabels then buildTagsString vm else ""
    workItemType := wit }

/-- Outcome of processing one issue inside the bulk-migration loop. -/
inductive BulkOutcome where
  | createdItem : Nat → BulkOutcome
  | createFailed : BulkOutcome
  | updatedItem : Nat → BulkOutcome
deriving DecidableEq

/-- Create branch of the bulk loop: resolve the work-item type, then
`createWorkItem`; a throwing create yields the `-1` sentinel and a recorded
failure. -/
def bulkCreatePath (mdToHtml : String → String) (smCfg : StateConfig)
    (b : AdoBackend) (vm : Vm) (projectInfo : Option ProjInfo) :
    BulkOutcome × AdoBackend :=
  let wit := resolvedStr (getWorkItemType smCfg vm.title vm.labels)
  if b.createFails then (.createFailed, b)
  else
    (.createdItem b.nextId,
      { b with
        items := b.items ++ [buildCreatedWorkItem mdToHtml smCfg b.nextId vm wit projectInfo],
        nextId := b.nextId + 1 })

/-- Per-issue body of `handleBulkMigration` (`index-enhanced.js`, the
`workItem === null || workItem === -1` branch): a found work item is updated;
both `null` (not found) AND `-1` (lookup error) take the create branch. -/
def bulkStep (mdToHtml : String → String) (smCfg : StateConfig)
    (b : AdoBackend) (vm : Vm) (projectInfo : Option ProjInfo) :
    BulkOutcome × AdoBackend :=
  match find b vm with
  | .found wi =>
    let patch := updateWorkItemPatch mdToHtml smCfg vm wi projectInfo
    (.updatedItem wi.id,
      { b with items := b.items.map (fun x => if x.id = wi.id then applyPatch x patch else x) })
  | .notFound => bulkCreatePath mdToHtml smCfg b vm projectInfo
  | .err => bulkCreatePath mdToHtml smCfg b vm projectInfo

/-! ### Statement-level helpers and concrete scenarios -/

/-- Every key occurs at most once in the cache. -/
def uniqKeys (m : List (String × Iter)) : Prop := ∀ k, countKey m k ≤ 1

/-- Values of one status sub-table. -/
def stateMapVals (sm : List (String × String)) : List String := sm.map Prod.snd

/-- Values reachable in one per-type table. -/
def typeTableVals (tym : List (String × List (String × String))) : List String :=
  ((tym.map Prod.snd).map stateMapVals).flatten

/-- Values reachable in one project's tables. -/
def projectVals (p : ProjectCfg) : List String :=
  ((p.statusMappings.map Prod.snd).map typeTableVals).flatten

/-- Every string `getAdoState` can return for a configuration: the two
built-in fallbacks, the override table's values, and every per-project table
value. -/
def configStateVals (cfg : StateConfig) : List String :=
  "Done" :: "New" :: (cfg.globalSettings.unmappedStatusFallback.map Prod.snd ++
    ((cfg.projects.map Prod.snd).map projectVals).flatten)

/-- The target states occurring in the default configuration. -/
def adoStatePool : List String :=
  ["New", "Done", "In Progress", "Approved", "Committed", "To Do"]

/-- Configuration with a non-empty wildcard value distinct from the global
fallback, for probing the wildcard rule. -/
def c2CexCfg : StateConfig :=
  { defaultProject := "p"
    globalSettings := { unmappedStatusFallback := [] }
    workItemTypeMapping := []
    projects :=
      [("p", { name := "p", adoAreaPath := "p",
               statusMappings := [("Bug", [("closed", [("*", "Removed")])])] })] }

/-- Configuration whose wildcard entry has the empty string as value (a falsy
property value in JS). -/
def c2CexCfgEmpty : StateConfig :=
  { defaultProject := "p"
    globalSettings := { unmappedStatusFallback := [] }
    workItemTypeMapping := []
    projects :=
      [("p", { name := "p", adoAreaPath := "p",
               statusMappings := [("Bug", [("closed", [("*", "")])])] })] }

/-- An iteration store on which every operation succeeds: no pre-existing
iterations, and `postTeamIteration` echoes the request. -/
def storeOk : IterStore :=
  { listResult := some []
    createResult := fun req => some ⟨req.name, req.startDate, req.finishDate, req.path⟩ }

/-- An iteration store whose `postTeamIteration` always throws. -/
def storeCreateFails : IterStore :=
  { listResult := some [], createResult := fun _ => none }

def c7EnvOk : IterEnv := { project := "P", store := storeOk, nowDay := 0, curYear := 2024 }

def c7EnvFail : IterEnv := { project := "P", store := storeCreateFails, nowDay := 0, curYear := 2024 }

def c7Info : SprintInfo :=
  { name := "Sprint 68 oct 13 - oct 26", startDate := none, duration := none }

def c7InfoEmptyName : SprintInfo := { name := "", startDate := none, duration := none }

def c7InfoPlain : SprintInfo := { name := "Sprint 1", startDate := none, duration := none }

/-- A creator state whose cache is loaded and empty. -/
def c10State : ICState := { existingIterations := [], cacheLoaded := true, createCalls := 0 }

/-- The source issue of the bulk-migration scenario. -/
def c1Vm : Vm :=
  { number := 7, title := "Fix crash", body := "details", state := "open",
    user := "kemo", labels := [], repo_name := "personal-sync-test",
    repository := "personal-sync-test" }

/-- An empty, healthy target system. -/
def c1Backend : AdoBackend :=
  { items := [], nextId := 1, connectFails := false, queryFails := false,
    createFails := false }

/-- The source issue of the update-diff scenario. -/
def c8Vm : Vm :=
  { number := 3, title := "T", body := "same text", state := "open",
    user := "u", labels := [], repo_name := "r", repository := "r" }

/-- A target snapshot whose title AND description already equal the computed
new values (the markup converter of the scenario is the identity). -/
def c8Wi : WorkItem :=
  { id := 9, title := "T (GitHub Issue #3)", description := "same text",
    state := "New", tags := "GitHub Issue; r; GH-3",
    workItemType := "Product Backlog Item" }

/-! ## Supporting lemmas -/

theorem mem_snd_of_alookup {α : Type} {k : String} {m : List (String × α)} {v : α}
    (h : alookup k m = some v) : v ∈ m.map Prod.snd := by
  induction m with
  | nil => simp [alookup] at h
  | cons p rest ih =>
    obtain ⟨k', v'⟩ := p
    by_cases hk : k' = k
    · simp [alookup, hk] at h
      simp [h]
    · simp [alookup, hk] at h
      simp [ih h]

theorem jsGet_cases {α : Type} (k : String) (m : List (String × α))
    (hk : k ∉ protoKeys) :
    jsGet k m = .absent ∨ ∃ v, jsGet k m = .own v ∧ alookup k m = some v := by
  unfold jsGet
  cases h : alookup k m with
  | none => simp [hk]
  | some v => exact Or.inr ⟨v, rfl, rfl⟩

theorem jsReadT_cases (k : String) (m : List (String × String))
    (hk : k ∉ protoKeys) :
    jsReadT k m = .miss ∨ ∃ v, jsReadT k m = .hit v ∧ v ∈ m.map Prod.snd := by
  unfold jsReadT
  cases h : alookup k m with
  | none => simp [hk]
  | some v =>
    by_cases hv : v = ""
    · simp [hv]
    · exact Or.inr ⟨v, by simp [hv], mem_snd_of_alookup h⟩

theorem getGlobalFallback_val_mem (cfg : StateConfig) (s : String)
    (hs : s ∉ protoKeys) :
    getGlobalFallback cfg s ∈ (configStateVals cfg).map JsOutcome.val := by
  have hDone : "Done" ∈ configStateVals cfg := List.mem_cons_self _ _
  have hNew : "New" ∈ configStateVals cfg := List.mem_cons_of_mem _ (List.mem_cons_self _ _)
  have hdflt : (if s = "closed" then "Done" else "New") ∈ configStateVals cfg := by
    by_cases hc : s = "closed"
    · rw [if_pos hc]; exact hDone
    · rw [if_neg hc]; exact hNew
  unfold getGlobalFallback
  rcases jsGet_cases s cfg.globalSettings.unmappedStatusFallback hs with h | ⟨v, h, h'⟩ <;>
    simp only [h]
  · exact List.mem_map_of_mem _ hdflt
  · by_cases hve : v = ""
    · rw [if_pos hve]
      exact List.mem_map_of_mem _ hdflt
    · rw [if_neg hve]
      exact List.mem_map_of_mem _ (List.mem_cons_of_mem _ (List.mem_cons_of_mem _
        (List.mem_append_left _ (mem_snd_of_alookup h'))))

theorem smap_val_mem {cfg : StateConfig} {pn wit ist : String} {proj : ProjectCfg}
    {tym : List (String × List (String × String))} {smap : List (String × String)} {v : String}
    (hp : alookup pn cfg.projects = some proj)
    (ht : alookup wit proj.statusMappings = some tym)
    (hs : alookup ist tym = some smap)
    (hv : v ∈ smap.map Prod.snd) : v ∈ configStateVals cfg := by
  have h2 : v ∈ typeTableVals tym :=
    List.mem_flatten.mpr ⟨stateMapVals smap,
      List.mem_map_of_mem _ (mem_snd_of_alookup hs), hv⟩
  have h4 : v ∈ projectVals proj :=
    List.mem_flatten.mpr ⟨typeTableVals tym,
      List.mem_map_of_mem _ (mem_snd_of_alookup ht), h2⟩
  have h6 : v ∈ ((cfg.projects.map Prod.snd).map projectVals).flatten :=
    List.mem_flatten.mpr ⟨projectVals proj,
      List.mem_map_of_mem _ (mem_snd_of_alookup hp), h4⟩
  exact List.mem_cons_of_mem _ (List.mem_cons_of_mem _ (List.mem_append_right _ h6))

theorem getAdoStateCore_val_mem (cfg : StateConfig) (wit ist pn : String)
    (ps : Option String)
    (h1 : ist ∉ protoKeys) (h2 : pn ∉ protoKeys) (h3 : wit ∉ protoKeys)
    (h4 : ∀ sv, ps = some sv → sv ∉ protoKeys) :
    getAdoStateCore cfg wit ist pn ps ∈ (configStateVals cfg).map JsOutcome.val := by
  have hkey0 : ∀ (x : Option String), (∀ sv, x = some sv → sv ∉ protoKeys) →
      (match x with | some s => s | none => "") ∉ protoKeys := by
    intro x hx
    cases x with
    | none => decide
    | some sv => exact hx sv rfl
  have hkey := hkey0 ps h4
  unfold getAdoStateCore
  split
  · exact getGlobalFallback_val_mem _ _ h1
  · rcases jsGet_cases pn cfg.projects h2 with hpn | ⟨proj, hpn, hpn'⟩ <;> simp only [hpn]
    · exact getGlobalFallback_val_mem _ _ h1
    · rcases jsGet_cases wit proj.statusMappings h3 with hwit | ⟨tym, hwit, hwit'⟩ <;>
        simp only [hwit]
      · exact getGlobalFallback_val_mem _ _ h1
      · rcases jsGet_cases ist tym h1 with hist | ⟨smap, hist, hist'⟩ <;> simp only [hist]
        · exact getGlobalFallback_val_mem _ _ h1
        · rcases jsReadT_cases "*" smap (by decide) with hst | ⟨w, hst, hwv⟩ <;>
            simp only [hst]
          · rcases jsReadT_cases _ smap hkey with hps2 | ⟨v, hps2, hv⟩ <;> simp only [hps2]
            · rcases jsReadT_cases "No status" smap (by decide) with hns | ⟨v, hns, hv⟩ <;>
                simp only [hns]
              · rcases jsReadT_cases "No Status" smap (by decide) with
                  hns2 | ⟨v, hns2, hv⟩ <;> simp only [hns2]
                · exact getGlobalFallback_val_mem _ _ h1
                · exact List.mem_map_of_mem _ (smap_val_mem hpn' hwit' hist' hv)
              · exact List.mem_map_of_mem _ (smap_val_mem hpn' hwit' hist' hv)
            · exact List.mem_map_of_mem _ (smap_val_mem hpn' hwit' hist' hv)
          · exact List.mem_map_of_mem _ (smap_val_mem hpn' hwit' hist' hwv)

theorem getAdoState_wildcard_aux (cfg : StateConfig) (wit : String) (st pn : Option String)
    (s : String) (proj : ProjectCfg) (tym : List (String × List (String × String)))
    (smap : List (String × String)) (w : String)
    (hs : s ≠ "")
    (hproj : alookup (jsLower (jsOr pn cfg.defaultProject)) cfg.projects = some proj)
    (htym : alookup wit proj.statusMappings = some tym)
    (hsmap : alookup (jsLower (jsOr st "open")) tym = some smap)
    (hw : alookup "*" smap = some w) (hwne : w ≠ "") :
    getAdoState cfg wit st pn (some s) = .val w := by
  have ht : jsTruthy (some s) = true := by simp [jsTruthy, hs]
  have hpn2 : jsGet (jsLower (jsOr pn cfg.defaultProject)) cfg.projects = .own proj := by
    simp [jsGet, hproj]
  have htym2 : jsGet wit proj.statusMappings = .own tym := by simp [jsGet, htym]
  have hsm2 : jsGet (jsLower (jsOr st "open")) tym = .own smap := by simp [jsGet, hsmap]
  have hw2 : jsReadT "*" smap = .hit w := by simp [jsReadT, hw, hwne]
  unfold getAdoState getAdoStateCore
  rw [ht]
  simp only [Bool.not_true, Bool.false_eq_true, if_false, hpn2, htym2, hsm2, hw2]

theorem countKey_nil (k : String) : countKey [] k = 0 := rfl

theorem countKey_cons (p : String × Iter) (m : List (String × Iter)) (k : String) :
    countKey (p :: m) k = (if p.1 = k then 1 else 0) + countKey m k := by
  by_cases h : p.1 = k <;> simp [countKey, List.filter, h, Nat.add_comm]

theorem countKey_zero_of_alookup_none {m : List (String × Iter)} {k : String}
    (h : alookup k m = none) : countKey m k = 0 := by
  induction m with
  | nil => rfl
  | cons p rest ih =>
    obtain ⟨k', v⟩ := p
    by_cases hk : k' = k
    · simp [alookup, hk] at h
    · simp [alookup, hk] at h
      rw [countKey_cons]
      simp [hk, ih h]

theorem one_le_countKey_of_alookup_some {m : List (String × Iter)} {k : String} {v : Iter}
    (h : alookup k m = some v) : 1 ≤ countKey m k := by
  induction m with
  | nil => simp [alookup] at h
  | cons p rest ih =>
    obtain ⟨k', v'⟩ := p
    by_cases hk : k' = k
    · rw [countKey_cons]
      simp [hk]
    · simp [alookup, hk] at h
      rw [countKey_cons]
      simp [hk]
      exact ih h

theorem alookup_mapSet_self (m : List (String × Iter)) (k : String) (v : Iter) :
    alookup k (mapSet m k v) = some v := by
  induction m with
  | nil => simp [mapSet, alookup]
  | cons p rest ih =>
    obtain ⟨k', v'⟩ := p
    by_cases hk : k' = k
    · simp [mapSet, hk, alookup]
    · simp [mapSet, hk, alookup, ih]

theorem countKey_mapSet_ne {m : List (String × Iter)} {k k' : String} (v : Iter)
    (hne : k ≠ k') : countKey (mapSet m k v) k' = countKey m k' := by
  induction m with
  | nil => simp [mapSet, countKey_cons, countKey_nil, hne]
  | cons p rest ih =>
    obtain ⟨k'', v''⟩ := p
    by_cases hk : k'' = k
    · subst hk
      simp [mapSet, countKey_cons, hne]
    · simp [mapSet, hk, countKey_cons, ih]

theorem countKey_mapSet_self (m : List (String × Iter)) (k : String) (v : Iter) :
    countKey (mapSet m k v) k = if countKey m k = 0 then 1 else countKey m k := by
  induction m with
  | nil => simp [mapSet, countKey_cons, countKey_nil]
  | cons p rest ih =>
    obtain ⟨k'', v''⟩ := p
    by_cases hk : k'' = k
    · subst hk
      simp [mapSet, countKey_cons]
    · simp [mapSet, hk, countKey_cons, ih]

theorem uniqKeys_mapSet {m : List (String × Iter)} (k : String) (v : Iter)
    (h : uniqKeys m) : uniqKeys (mapSet m k v) := by
  intro k'
  by_cases hk : k = k'
  · subst hk
    rw [countKey_mapSet_self]
    have := h k
    split <;> omega
  · rw [countKey_mapSet_ne v hk]
    exact h k'

theorem uniqKeys_foldl_mapSet (its : List Iter) (m : List (String × Iter))
    (h : uniqKeys m) :
    uniqKeys (its.foldl (fun m it => mapSet m (jsLower it.name) it) m) := by
  induction its generalizing m with
  | nil => exact h
  | cons it rest ih =>
    exact ih _ (uniqKeys_mapSet _ _ h)

theorem countKey_one_of_uniq {m : List (String × Iter)} {k : String} {v : Iter}
    (hu : uniqKeys m) (h : alookup k m = some v) : countKey m k = 1 :=
  Nat.le_antisymm (hu k) (one_le_countKey_of_alookup_some h)

theorem load_of_loaded {env : IterEnv} {s : ICState} (h : s.cacheLoaded = true) :
    loadExistingIterations env s = s := by
  simp [loadExistingIterations, h]

theorem load_load (env : IterEnv) (s : ICState) :
    loadExistingIterations env (loadExistingIterations env s) = loadExistingIterations env s := by
  by_cases h : s.cacheLoaded = true
  · rw [load_of_loaded h, load_of_loaded h]
  · unfold loadExistingIterations
    simp only [h]
    cases hl : env.store.listResult with
    | none => simp [h, hl]
    | some its => simp [hl]

theorem load_stable (env : IterEnv) (s : ICState) (X : List (String × Iter)) (n : Nat) :
    loadExistingIterations env
      { loadExistingIterations env s with existingIterations := X, createCalls := n }
    = { loadExistingIterations env s with existingIterations := X, createCalls := n } := by
  by_cases h : s.cacheLoaded = true
  · rw [load_of_loaded h]
    exact load_of_loaded (by simp [h])
  · unfold loadExistingIterations
    simp only [h]
    cases hl : env.store.listResult with
    | none => simp [h, hl]
    | some its => simp [hl]

theorem uniqKeys_load (env : IterEnv) (s : ICState) (h : uniqKeys s.existingIterations) :
    uniqKeys (loadExistingIterations env s).existingIterations := by
  unfold loadExistingIterations
  by_cases hc : s.cacheLoaded = true
  · simpa [hc]
  · simp only [hc]
    cases hl : env.store.listResult with
    | none => simpa
    | some its => simpa using uniqKeys_foldl_mapSet its _ h

theorem createIteration_cached (env : IterEnv) (s : ICState) (name : String)
    (sd ed : Option (Option Int)) (p : Option String) {it : Iter}
    (h : alookup (jsLower name) (loadExistingIterations env s).existingIterations = some it) :
    createIteration env s name sd ed p = (some it, loadExistingIterations env s) := by
  unfold createIteration iterationExists getIteration
  simp [h, load_load]

theorem createIteration_new (env : IterEnv) (s : ICState) (name : String)
    (sd ed : Option (Option Int)) (p : Option String)
    (habs : alookup (jsLower name) (loadExistingIterations env s).existingIterations = none) :
    createIteration env s name sd ed p =
      match env.store.createResult (buildIterReq env name sd ed p) with
      | some it =>
        (some it,
          { loadExistingIterations env s with
            existingIterations :=
              mapSet (loadExistingIterations env s).existingIterations (jsLower name) it,
            createCalls := (loadExistingIterations env s).createCalls + 1 })
      | none =>
        (none,
          { loadExistingIterations env s with
            createCalls := (loadExistingIterations env s).createCalls + 1 }) := by
  unfold createIteration iterationExists
  simp only [habs, Option.isSome_none, Bool.false_eq_true, if_false]

theorem cfsi_eq_createIteration (env : IterEnv) (s : ICState) (info : SprintInfo)
    (dd : Int) (h : info.name ≠ "") :
    ∃ sd ed, createFromSprintInfo env s (some info) dd
      = createIteration env s info.name sd ed none := by
  simp only [createFromSprintInfo]
  rw [if_neg h]
  exact ⟨_, _, rfl⟩

/-! ## Claims -/

/-- Claim C1: the bulk-migration workflow must never treat a lookup error
(the `-1` sentinel from `find`) as "not found", and a second run for the same
(repository, source id) pair must update the work item created by the first
run rather than create a second one.  Evaluating the per-issue step: on an
empty healthy backend the first call creates work item 1 and the second call
updates work item 1 (the identity invariant holds when `find` works) — but
when the WIQL query throws and `find` returns the error sentinel, the step
nevertheless performs a create (work item 2), contradicting the stated
error-handling guarantee: `handleBulkMigration` tests
`workItem === null || workItem === -1` and sends both to the create branch. -/
theorem bulk_lookup_error_creates :
    (bulkStep id defaultConfig c1Backend c1Vm none).1 = .createdItem 1 ∧
    (bulkStep id defaultConfig
        (bulkStep id defaultConfig c1Backend c1Vm none).2 c1Vm none).1
      = .updatedItem 1 ∧
    find { (bulkStep id defaultConfig c1Backend c1Vm none).2 with queryFails := true } c1Vm
      = .err ∧
    (bulkStep id defaultConfig
        { (bulkStep id defaultConfig c1Backend c1Vm none).2 with queryFails := true }
        c1Vm none).1
      = .createdItem 2 := by
  refine ⟨by decide, by decide, by decide, by decide⟩

/-- Claim C2 (counterexample): as stated, the claim fails on JS truthiness
edges.  With a wildcard entry present, a non-null but empty `projectStatus`
string falls into the global-fallback guard ("Done" instead of "Removed"),
and a wildcard entry whose value is the empty string is falsy and skipped
("Done" instead of ""). -/
theorem getAdoState_wildcard_cex :
    (alookup "*" [("*", "Removed")] = some "Removed" ∧
     getAdoState c2CexCfg "Bug" (some "closed") (some "p") (some "") = .val "Done" ∧
     getAdoState c2CexCfg "Bug" (some "closed") (some "p") (some "") ≠ .val "Removed") ∧
    (alookup "*" [("*", "")] = some "" ∧
     getAdoState c2CexCfgEmpty "Bug" (some "closed") (some "p") (some "In Production")
       = .val "Done" ∧
     getAdoState c2CexCfgEmpty "Bug" (some "closed") (some "p") (some "In Production")
       ≠ .val "") := by
  refine ⟨⟨by decide, by decide, by decide⟩, ⟨by decide, by decide, by decide⟩⟩

/-- Claim C2 (amended): whenever the configured project's per-type table has
a sub-table for the normalised source state containing a wildcard `"*"` entry
with a non-empty value, and `projectStatus` is a non-empty string (JS-truthy),
`getAdoState` returns the wildcard value regardless of the status value; and
under the default configuration a closed `Bug` in project `siwar` resolves to
`"Done"` for every `projectStatus` whatsoever (including `"In Production"`). -/
theorem getAdoState_wildcard (cfg : StateConfig) (wit : String) (st pn : Option String)
    (s : String) (proj : ProjectCfg) (tym : List (String × List (String × String)))
    (smap : List (String × String)) (w : String)
    (hs : s ≠ "")
    (hproj : alookup (jsLower (jsOr pn cfg.defaultProject)) cfg.projects = some proj)
    (htym : alookup wit proj.statusMappings = some tym)
    (hsmap : alookup (jsLower (jsOr st "open")) tym = some smap)
    (hw : alookup "*" smap = some w) (hwne : w ≠ "") :
    getAdoState cfg wit st pn (some s) = .val w ∧
    ∀ ps' : Option String,
      getAdoState defaultConfig "Bug" (some "closed") (some "siwar") ps' = .val "Done" := by
  constructor
  · exact getAdoState_wildcard_aux cfg wit st pn s proj tym smap w hs hproj htym hsmap hw hwne
  · intro ps'
    cases ps' with
    | none => decide
    | some s' =>
      by_cases hs' : s' = ""
      · subst hs'; decide
      · exact getAdoState_wildcard_aux defaultConfig "Bug" (some "closed") (some "siwar") s'
          siwarProject [("open", pbiOpenMap), ("closed", [("*", "Done")])] [("*", "Done")]
          "Done" hs' (by decide) (by decide) (by decide) (by decide) (by decide)

/-- Claim C2 (witness): the wildcard rule applied to the end-to-end scenario
of the specification. -/
theorem getAdoState_wildcard_witness :
    getAdoState defaultConfig "Bug" (some "closed") (some "siwar") (some "In Production")
      = .val "Done" :=
  (getAdoState_wildcard defaultConfig "Bug" (some "closed") (some "siwar") "In Production"
    siwarProject [("open", pbiOpenMap), ("closed", [("*", "Done")])] [("*", "Done")] "Done"
    (by decide) (by decide) (by decide) (by decide) (by decide) (by decide)).1

/-- Claim C3 (counterexample): as stated the claim is false of the program.
With `projectStatus` absent and sourceState `constructor`, the fallback read
`fallbacks['constructor']` hits the truthy inherited `Object` constructor,
which `||` returns as-is — a function, not the claimed fallback `"New"`.
And with a truthy status and projectName `constructor` — which has no entry
in the projects table — `projects['constructor']` is the truthy inherited
constructor, the `!projects[projectName]` guard passes, and
`project.statusMappings[workItemType]` throws a TypeError instead of
returning the fallback. -/
theorem getAdoState_global_fallback_cex :
    getAdoState defaultConfig "Bug" (some "constructor") none none = .protoVal ∧
    (JsOutcome.protoVal : JsOutcome String) ≠ .val "New" ∧
    alookup "constructor" defaultConfig.projects = none ∧
    getAdoState defaultConfig "Bug" (some "open") (some "constructor") (some "x")
      = .thrown := by
  refine ⟨by decide, by decide, by decide, by decide⟩

/-- Claim C3 (amended): when `projectStatus` is absent or falsy, or the
normalised project name has no entry in the projects table AND is not an
`Object.prototype` property name, `getAdoState` returns exactly the
configured global fallback of the normalised source state; and whenever the
normalised source state is itself not an `Object.prototype` property name,
that fallback is the `unmappedStatusFallback` override when truthy and
otherwise `"Done"` for `"closed"`, `"New"` for everything else. -/
theorem getAdoState_global_fallback (cfg : StateConfig) (wit : String)
    (st pn ps : Option String)
    (h : jsTruthy ps = false ∨
         jsGet (jsLower (jsOr pn cfg.defaultProject)) cfg.projects = .absent) :
    getAdoState cfg wit st pn ps = getGlobalFallback cfg (jsLower (jsOr st "open")) ∧
    (jsLower (jsOr st "open") ∉ protoKeys →
      getGlobalFallback cfg (jsLower (jsOr st "open"))
        = .val (jsOr
            (alookup (jsLower (jsOr st "open")) cfg.globalSettings.unmappedStatusFallback)
            (if jsLower (jsOr st "open") = "closed" then "Done" else "New"))) := by
  constructor
  · unfold getAdoState getAdoStateCore
    rcases h with h | h
    · simp [h]
    · cases hb : jsTruthy ps with
      | false => simp [hb]
      | true => simp [hb, h]
  · intro hnp
    unfold getGlobalFallback jsGet
    cases hl : alookup (jsLower (jsOr st "open")) cfg.globalSettings.unmappedStatusFallback with
    | none =>
      simp only [hl]
      rw [if_neg hnp]
      simp [jsOr]
    | some v =>
      simp only [hl]
      simp [jsOr]

/-- Claim C3 (witness): an unconfigured project with a closed issue resolves
to the global fallback, which is `"Done"`. -/
theorem getAdoState_global_fallback_witness :
    getAdoState defaultConfig "Bug" (some "closed") (some "falak") (some "In Progress")
      = getGlobalFallback defaultConfig (jsLower (jsOr (some "closed") "open")) ∧
    getGlobalFallback defaultConfig (jsLower (jsOr (some "closed") "open")) = .val "Done" :=
  ⟨(getAdoState_global_fallback defaultConfig "Bug" (some "closed") (some "falak")
      (some "In Progress") (Or.inr (by decide))).1, by decide⟩

/-- Claim C4 (counterexample): `getAdoState` does throw, and does return
non-strings, under the default configuration.  With projectName `__proto__`
(normalised form of a project literally so named) and a truthy status,
`projects['__proto__']` is the truthy inherited prototype object, the guard
passes, and `project.statusMappings[workItemType]` throws a TypeError.  With
sourceState `constructor` and no status, the global fallback read leaks the
truthy inherited `Object` constructor — a function, not a string. -/
theorem getAdoState_total_cex :
    getAdoState defaultConfig "Task" (some "open") (some "__proto__") (some "In Progress")
      = .thrown ∧
    getAdoState defaultConfig "Task" (some "constructor") none none = .protoVal := by
  refine ⟨by decide, by decide⟩

/-- Claim C4 (amended): under the default configuration `getAdoState` never
throws and returns one of the configured state strings, for every
combination of work-item type and nullable source state, project name and
project status whose lookup keys avoid the `Object.prototype` property
names: the normalised source state and normalised project name are not
inherited property names (after lowercasing only `constructor` and
`__proto__` collide), and neither the work-item type nor the status value
(both used verbatim as keys) is one. -/
theorem getAdoState_total (wit : String) (st pn ps : Option String)
    (h1 : jsLower (jsOr st "open") ∉ protoKeys)
    (h2 : jsLower (jsOr pn defaultConfig.defaultProject) ∉ protoKeys)
    (h3 : wit ∉ protoKeys)
    (h4 : ∀ sv, ps = some sv → sv ∉ protoKeys) :
    getAdoState defaultConfig wit st pn ps ∈ adoStatePool.map JsOutcome.val := by
  have h := getAdoStateCore_val_mem defaultConfig wit (jsLower (jsOr st "open"))
    (jsLower (jsOr pn defaultConfig.defaultProject)) ps h1 h2 h3 h4
  rcases List.mem_map.mp h with ⟨v, hv, heq⟩
  have hsub : ∀ x ∈ configStateVals defaultConfig, x ∈ adoStatePool := by decide
  unfold getAdoState
  rw [← heq]
  exact List.mem_map_of_mem _ (hsub v hv)

/-- Claim C4 (witness): totality at ordinary inputs. -/
theorem getAdoState_total_witness :
    getAdoState defaultConfig "Bug" (some "open") none none
      ∈ adoStatePool.map JsOutcome.val :=
  getAdoState_total "Bug" (some "open") none none (by decide) (by decide) (by decide)
    (fun sv h => Option.noConfusion h)

/-- Claim C5: the three specified round-trips of the sprint-date parser with
year 2024 — the month-name grammar, the numeric `M/D` grammar and the ISO
pair grammar all yield the pair (2024-10-13, 2024-10-26) — and every input
matched by none of the three grammars yields `null`. -/
theorem parseSprintDates_round_trip :
    parseSprintDates ("Sprint 68 oct 13 - oct 26".toList) 2024
      = some (some (daysFromCivil 2024 10 13), some (daysFromCivil 2024 10 26)) ∧
    parseSprintDates ("10/13 - 10/26".toList) 2024
      = some (some (daysFromCivil 2024 10 13), some (daysFromCivil 2024 10 26)) ∧
    parseSprintDates ("2024-10-13 to 2024-10-26".toList) 2024
      = some (some (daysFromCivil 2024 10 13), some (daysFromCivil 2024 10 26)) ∧
    ∀ (s : List Char) (y : Int),
      firstMatch matchP1At s = none → firstMatch matchP2At s = none →
      firstMatch matchP3At s = none → parseSprintDates s y = none := by
  refine ⟨by decide, by decide, by decide, ?_⟩
  intro s y h1 h2 h3
  unfold parseSprintDates
  rw [h1, h2, h3]

/-- Claim C5 (witness): a sprint label without any recognisable dates parses
to `null`. -/
theorem parseSprintDates_round_trip_witness :
    firstMatch matchP1At ("Retrospective notes".toList) = none ∧
    parseSprintDates ("Retrospective notes".toList) 2024 = none :=
  ⟨by decide,
   parseSprintDates_round_trip.2.2.2 ("Retrospective notes".toList) 2024
     (by decide) (by decide) (by decide)⟩

/-- Claim C6 (counterexample): `parseMonth` does not return an integer for
every input.  The month strings `constructor` and `__proto__` are
unrecognised (no entry in the 24-synonym table), yet
`months[x] || 0` reads the truthy inherited `Object.prototype` value and
returns it — a function/object, not the claimed default index 0 and not an
integer in 0..11. -/
theorem parseMonth_spec_cex :
    alookup "constructor" monthsTable = none ∧
    parseMonth "constructor" = .protoVal ∧
    parseMonth "constructor" ≠ .val 0 ∧
    parseMonth "__proto__" = .protoVal := by
  refine ⟨by decide, by decide, by decide, by decide⟩

/-- Claim C6 (amended): every month index `parseMonth` returns is in 0..11;
every string whose lowercase form is one of the 24 recognised month-name
synonyms maps to that synonym's index; and every unrecognised month name
whose lowercase form is not an `Object.prototype` property name (after
lowercasing only `constructor` and `__proto__` collide) yields index 0
(January) rather than failing. -/
theorem parseMonth_spec :
    (∀ (s : String) (n : Nat), parseMonth s = .val n → n ≤ 11) ∧
    (∀ (s : String) (p : String × Nat), p ∈ monthsTable → jsLower s = p.1 →
      parseMonth s = .val p.2) ∧
    (∀ s : String, alookup (jsLower s) monthsTable = none →
      jsLower s ∉ protoKeys → parseMonth s = .val 0) := by
  refine ⟨?_, ?_, ?_⟩
  · intro s n hn
    unfold parseMonth at hn
    cases hl : alookup (jsLower s) monthsTable with
    | none =>
      by_cases hk : jsLower s ∈ protoKeys
      · rw [show jsGet (jsLower s) monthsTable = .inherited from by simp [jsGet, hl, hk]] at hn
        exact JsRes.noConfusion hn
      · rw [show jsGet (jsLower s) monthsTable = .absent from by simp [jsGet, hl, hk]] at hn
        have hn' := JsRes.val.inj hn
        omega
    | some v =>
      rw [show jsGet (jsLower s) monthsTable = .own v from by simp [jsGet, hl]] at hn
      have hall : ∀ x ∈ monthsTable.map Prod.snd, x ≤ 11 := by decide
      have hv11 := hall v (mem_snd_of_alookup hl)
      have hn' := JsRes.val.inj hn
      by_cases h0 : v = 0
      · rw [if_pos h0] at hn'
        omega
      · rw [if_neg h0] at hn'
        omega
  · intro s p hp hls
    have huniq : ∀ p ∈ monthsTable, alookup p.1 monthsTable = some p.2 := by decide
    unfold parseMonth jsGet
    rw [hls, huniq p hp]
    by_cases h0 : p.2 = 0 <;> simp [h0]
  · intro s h hnp
    unfold parseMonth jsGet
    rw [h]
    simp [hnp]

/-- Claim C6 (witness): a case-insensitive synonym maps to its index, and an
unknown (non-inherited) month name maps to 0. -/
theorem parseMonth_spec_witness : parseMonth "OCT" = .val 9 ∧ parseMonth "zzz" = .val 0 :=
  ⟨parseMonth_spec.2.1 "OCT" ("oct", 9) (by decide) (by decide),
   parseMonth_spec.2.2 "zzz" (by decide) (by decide)⟩

/-- Claim C7 (counterexample): as stated over every sprint name and without
assumptions on the iteration store, the claim fails — with the empty sprint
name both calls are rejected and the cache stays empty (zero entries, not
one), and with a store whose create always throws the cache also stays empty
while the second call invokes the store's create a second time. -/
theorem createFromSprintInfo_idem_cex :
    (createFromSprintInfo c7EnvOk
        (createFromSprintInfo c7EnvOk initICState (some c7InfoEmptyName) 14).2
        (some c7InfoEmptyName) 14).2.existingIterations = [] ∧
    (createFromSprintInfo c7EnvFail
        (createFromSprintInfo c7EnvFail initICState (some c7InfoPlain) 14).2
        (some c7InfoPlain) 14).2.existingIterations = [] ∧
    (createFromSprintInfo c7EnvFail initICState (some c7InfoPlain) 14).2.createCalls = 1 ∧
    (createFromSprintInfo c7EnvFail
        (createFromSprintInfo c7EnvFail initICState (some c7InfoPlain) 14).2
        (some c7InfoPlain) 14).2.createCalls = 2 := by
  refine ⟨by decide, by decide, by decide, by decide⟩

/-- Claim C7 (amended): for every non-empty sprint name, when the iteration
store's create succeeds, two successive `createFromSprintInfo` calls for the
same sprint info leave exactly one cache entry under the lowercased name, the
second call returns the first call's result, that result is exactly the
cached entry after the first call, and the second call does not invoke the
store's create again. -/
theorem createFromSprintInfo_idem (env : IterEnv) (info : SprintInfo)
    (r1 r2 : Option Iter × ICState)
    (hname : info.name ≠ "")
    (hcreate : ∀ req, (env.store.createResult req).isSome)
    (h1 : r1 = createFromSprintInfo env initICState (some info) 14)
    (h2 : r2 = createFromSprintInfo env r1.2 (some info) 14) :
    countKey r2.2.existingIterations (jsLower info.name) = 1 ∧
    r2.1 = r1.1 ∧
    r2.1 = alookup (jsLower info.name) r1.2.existingIterations ∧
    r2.2.createCalls = r1.2.createCalls := by
  obtain ⟨sd1, ed1, e1⟩ := cfsi_eq_createIteration env initICState info 14 hname
  have hu0 : uniqKeys (loadExistingIterations env initICState).existingIterations :=
    uniqKeys_load env initICState (fun k => by simp [initICState, countKey_nil])
  cases hk : alookup (jsLower info.name)
      (loadExistingIterations env initICState).existingIterations with
  | some it =>
    have e1' : r1 = (some it, loadExistingIterations env initICState) := by
      rw [h1, e1]
      exact createIteration_cached env initICState info.name sd1 ed1 none hk
    obtain ⟨sd2, ed2, e2⟩ := cfsi_eq_createIteration env r1.2 info 14 hname
    have hk2 : alookup (jsLower info.name)
        (loadExistingIterations env r1.2).existingIterations = some it := by
      rw [e1', load_load]
      exact hk
    have e2' : r2 = (some it, loadExistingIterations env r1.2) := by
      rw [h2, e2]
      exact createIteration_cached env r1.2 info.name sd2 ed2 none hk2
    have hr12 : r1.2 = loadExistingIterations env initICState := by rw [e1']
    refine ⟨?_, ?_, ?_, ?_⟩
    · rw [e2', hr12, load_load]
      exact countKey_one_of_uniq hu0 hk
    · rw [e2', e1']
    · rw [e2', hr12, hk]
    · rw [e2', hr12, load_load]
  | none =>
    obtain ⟨it, hit⟩ := Option.isSome_iff_exists.mp
      (hcreate (buildIterReq env info.name sd1 ed1 none))
    have e1' : r1 = (some it,
        { loadExistingIterations env initICState with
          existingIterations :=
            mapSet (loadExistingIterations env initICState).existingIterations
              (jsLower info.name) it,
          createCalls := (loadExistingIterations env initICState).createCalls + 1 }) := by
      rw [h1, e1, createIteration_new env initICState info.name sd1 ed1 none hk, hit]
    obtain ⟨sd2, ed2, e2⟩ := cfsi_eq_createIteration env r1.2 info 14 hname
    have hload2 : loadExistingIterations env r1.2 = r1.2 := by
      rw [e1']
      exact load_stable env initICState _ _
    have hk2 : alookup (jsLower info.name)
        (loadExistingIterations env r1.2).existingIterations = some it := by
      rw [hload2, e1']
      exact alookup_mapSet_self _ _ _
    have e2' : r2 = (some it, loadExistingIterations env r1.2) := by
      rw [h2, e2]
      exact createIteration_cached env r1.2 info.name sd2 ed2 none hk2
    refine ⟨?_, ?_, ?_, ?_⟩
    · rw [e2', hload2, e1']
      simp only
      rw [countKey_mapSet_self, countKey_zero_of_alookup_none hk]
      rfl
    · rw [e2', e1']
    · rw [e2', hload2, e1']
      simp only
      rw [alookup_mapSet_self]
    · rw [e2', hload2]

/-- Claim C7 (witness): the idempotence property at a concrete sprint and an
always-succeeding store. -/
theorem createFromSprintInfo_idem_witness :
    countKey
      (createFromSprintInfo c7EnvOk
        (createFromSprintInfo c7EnvOk initICState (some c7Info) 14).2
        (some c7Info) 14).2.existingIterations
      (jsLower c7Info.name) = 1 ∧
    (createFromSprintInfo c7EnvOk
        (createFromSprintInfo c7EnvOk initICState (some c7Info) 14).2
        (some c7Info) 14).1
      = (createFromSprintInfo c7EnvOk initICState (some c7Info) 14).1 ∧
    (createFromSprintInfo c7EnvOk
        (createFromSprintInfo c7EnvOk initICState (some c7Info) 14).2
        (some c7Info) 14).1
      = alookup (jsLower c7Info.name)
          (createFromSprintInfo c7EnvOk initICState (some c7Info) 14).2.existingIterations ∧
    (createFromSprintInfo c7EnvOk
        (createFromSprintInfo c7EnvOk initICState (some c7Info) 14).2
        (some c7Info) 14).2.createCalls
      = (createFromSprintInfo c7EnvOk initICState (some c7Info) 14).2.createCalls :=
  createFromSprintInfo_idem c7EnvOk c7Info _ _ (by decide) (fun req => rfl) rfl rfl

/-- Claim C8: the update path is required to emit `replace` operations only
for fields whose computed value differs from the target snapshot.  Evaluating
`updateWorkItem`'s patch construction at a snapshot whose title AND
description both already equal the computed values: the title (diffed
byte-for-byte) is correctly omitted and exactly one `System.History` entry is
appended, but a description `replace` is emitted although the computed
description equals the snapshot — the source pushes the description
operation unconditionally, contradicting its own `Update description if
changed` comment and the stated diff-minimality. -/
theorem updateWorkItem_description_not_diffed :
    c8Wi.description = id c8Vm.body ∧
    c8Wi.title = renderedTitle c8Vm ∧
    updateWorkItemPatch id defaultConfig c8Vm c8Wi none =
      [⟨"replace", "/fields/System.Description", "same text"⟩,
       ⟨"add", "/fields/System.History", "Issue updated on GitHub by u"⟩] ∧
    updateWorkItemPatch id defaultConfig c8Vm { c8Wi with title := "other" } none =
      [⟨"replace", "/fields/System.Title", "T (GitHub Issue #3)"⟩,
       ⟨"replace", "/fields/System.Description", "same text"⟩,
       ⟨"add", "/fields/System.History", "Issue updated on GitHub by u"⟩] := by
  refine ⟨by decide, by decide, by decide, by decide⟩

/-- Claim C9 (counterexample): the label fallback is false of the program.
With no matching title prefix and labels `[constructor, task]`, the claim
(first label found in the label table, i.e. `task` → `Task`) is violated:
`labelMap['constructor']` is the truthy inherited `Object` constructor, and
the source returns that function as the work-item type — neither a table
type nor the configured default. -/
theorem getWorkItemType_spec_cex :
    alookup "task" labelTypeMap = some "Task" ∧
    getWorkItemType defaultConfig "fix crash" ["constructor", "task"] = .protoVal ∧
    getWorkItemType defaultConfig "fix crash" ["constructor", "task"] ≠ .val "Task" ∧
    getWorkItemType defaultConfig "fix crash" ["__proto__"] = .protoVal ∧
    getWorkItemType defaultConfig "fix crash" ["__proto__"]
      ≠ .val "Product Backlog Item" := by
  refine ⟨by decide, by decide, by decide, by decide, by decide⟩

/-- Claim C9 (amended, stated for the default configuration, whose prefix
keys make the `'^\\' + prefix` regex a case-insensitive starts-with):
`getWorkItemType` returns the type of the first matching title-prefix
pattern (in table order); failing that, the type of the first label that
resolves in the label table — provided no earlier label collides with an
`Object.prototype` property name, which the source would return instead;
failing that, the configured default type.  Plus the three end-to-end
scenarios of the specification. -/
theorem getWorkItemType_spec :
    (∀ (title : String) (labels : List String) (ty : String),
      findPrefixType title defaultConfig.workItemTypeMapping = some ty →
      getWorkItemType defaultConfig title labels = .val ty) ∧
    (∀ (title : String) (labels : List String) (ty : String),
      findPrefixType title defaultConfig.workItemTypeMapping = none →
      findLabelType labels = some (.val ty) →
      getWorkItemType defaultConfig title labels = .val ty) ∧
    (∀ (title : String) (labels : List String),
      findPrefixType title defaultConfig.workItemTypeMapping = none →
      findLabelType labels = none →
      getWorkItemType defaultConfig title labels
        = .val (jsOr (alookup "default" defaultConfig.workItemTypeMapping)
            "Product Backlog Item")) ∧
    getWorkItemType defaultConfig "[Epic] Launch V2" [] = .val "Epic" ∧
    getWorkItemType defaultConfig "Speed up sync" ["task"] = .val "Task" ∧
    getWorkItemType defaultConfig "Speed up sync" [] = .val "Product Backlog Item" := by
  refine ⟨?_, ?_, ?_, by decide, by decide, by decide⟩
  · intro title labels ty h
    unfold getWorkItemType
    rw [h]
  · intro title labels ty h h'
    unfold getWorkItemType
    rw [h, h']
  · intro title labels h h'
    unfold getWorkItemType
    rw [h, h']

/-- Claim C9 (witness): the prefix rule and the label rule at concrete
inputs. -/
theorem getWorkItemType_spec_witness :
    getWorkItemType defaultConfig "[Bug] crash on load" [] = .val "Bug" ∧
    getWorkItemType defaultConfig "crash on load" ["bug"] = .val "Bug" :=
  ⟨getWorkItemType_spec.1 "[Bug] crash on load" [] "Bug" (by decide),
   getWorkItemType_spec.2.1 "crash on load" ["bug"] "Bug" (by decide) (by decide)⟩

/-- Claim C10: `createIteration` is atomic on error — for a loaded cache with
no entry for the name, a throwing create returns `null` and leaves the state
unchanged except for the attempt count (in particular no cache entry is
inserted), a subsequent call attempts creation again, and the cache gains an
entry for the name exactly when creation succeeds. -/
theorem createIteration_error_atomic (env : IterEnv) (s : ICState) (name : String)
    (sd ed : Option (Option Int)) (p : Option String)
    (hl : s.cacheLoaded = true)
    (habs : alookup (jsLower name) s.existingIterations = none) :
    (env.store.createResult (buildIterReq env name sd ed p) = none →
      createIteration env s name sd ed p
        = (none, { s with createCalls := s.createCalls + 1 }) ∧
      (createIteration env (createIteration env s name sd ed p).2
          name sd ed p).2.createCalls
        = s.createCalls + 2) ∧
    (∀ it, env.store.createResult (buildIterReq env name sd ed p) = some it →
      createIteration env s name sd ed p
        = (some it,
            { s with
              existingIterations := mapSet s.existingIterations (jsLower name) it,
              createCalls := s.createCalls + 1 })) := by
  have hload : loadExistingIterations env s = s := load_of_loaded hl
  have habs' : alookup (jsLower name)
      (loadExistingIterations env s).existingIterations = none := by
    rw [hload]; exact habs
  constructor
  · intro hc
    have e1 := createIteration_new env s name sd ed p habs'
    simp only [hc, hload] at e1
    refine ⟨e1, ?_⟩
    rw [e1]
    have hl2 : ({ s with createCalls := s.createCalls + 1 } : ICState).cacheLoaded = true := hl
    have habs2 : alookup (jsLower name)
        (loadExistingIterations env
          { s with createCalls := s.createCalls + 1 }).existingIterations = none := by
      rw [load_of_loaded hl2]; exact habs
    have e2 := createIteration_new env { s with createCalls := s.createCalls + 1 }
      name sd ed p habs2
    simp only [hc, load_of_loaded hl2] at e2
    rw [e2]
  · intro it hc
    have e1 := createIteration_new env s name sd ed p habs'
    simp only [hc, hload] at e1
    exact e1

/-- Claim C10 (witness): a failing create at a loaded empty cache returns
`null`, inserts nothing, and the retry invokes the store again. -/
theorem createIteration_error_atomic_witness :
    (createIteration c7EnvFail c10State "Sprint X" none none none
      = (none, { c10State with createCalls := 1 }) ∧
     (createIteration c7EnvFail
        (createIteration c7EnvFail c10State "Sprint X" none none none).2
        "Sprint X" none none none).2.createCalls = 2) :=
  (createIteration_error_atomic c7EnvFail c10State "Sprint X" none none none
    rfl rfl).1 rfl

end Sync

